import Mathlib

/-!
Shallow embedding of the feed transformation pipeline of `src/transform.mjs`
(Nedgame → ActiveCampaign RSS/JSON proxy).

Strings are modelled by Lean `String`; where character-level reasoning is
needed (the HTML escaper) we work on `String.data : List Char`.  JavaScript
runtime builtins that the repository calls but does not define
(`parseFloat`, `Number.prototype.toFixed`, `String.prototype.trim`) are
modelled by executable Lean functions; everything else is translated
directly from the source.

A note on the source encoding: `src/transform.mjs` is stored with
double-encoded UTF-8, so the euro sign appears in the file as the three
characters U+00E2 U+201A U+00AC and the en dash as U+00E2 U+20AC U+201C.
The string literals below reproduce exactly those characters.
-/

/-- `Array.prototype.join(sep)` of JavaScript. -/
def jsJoin (sep : String) : List String → String
  | [] => ""
  | [a] => a
  | a :: b :: r => a ++ sep ++ jsJoin sep (b :: r)

/-- Global replacement of the single character `c` by the string `r`,
modelling a JavaScript `.replace(/c/g, r)` call: every occurrence of the
one-character pattern is rewritten independently, which on a character
list is exactly `flatMap`. -/
def replaceAllChar (c : Char) (r : List Char) (s : List Char) : List Char :=
  s.flatMap fun x => if x = c then r else [x]

/-- The HTML escaper defined (twice, identically) in `productCardHTML` and
`toRss`:
`String(s).replace(/&/g,"&amp;").replace(/</g,"&lt;").replace(/>/g,"&gt;")`,
as a transformation of character lists, applied in source order
(`&` first, then `<`, then `>`). -/
def escL (s : List Char) : List Char :=
  replaceAllChar '>' ['&', 'g', 't', ';']
    (replaceAllChar '<' ['&', 'l', 't', ';']
      (replaceAllChar '&' ['&', 'a', 'm', 'p', ';'] s))

/-- The escaper on `String`. -/
def esc (s : String) : String := String.mk (escL s.data)

/-- Per-character specification of the escaper: `&` ↦ `&amp;`, `<` ↦ `&lt;`,
`>` ↦ `&gt;`, all other characters unchanged.  The theorems below relate
`escL` (the source's chain of three global replaces) to this map. -/
def escChar (c : Char) : List Char :=
  if c = '&' then ['&', 'a', 'm', 'p', ';']
  else if c = '<' then ['&', 'l', 't', ';']
  else if c = '>' then ['&', 'g', 't', ';']
  else [c]

/-- A normalized product record (the element type produced by
`parseProducts`).  `price` is the result of `parseFloat`; `none` stands for
JavaScript `NaN` (`isFinite(price)` is `false` exactly on `none`). -/
structure Product where
  id : String
  title : String
  link : String
  image : String
  price : Option ℚ
deriving DecidableEq, Repr

/-- A raw field value as delivered by the XML parser: absent (`undefined` /
`null`), a CDATA-wrapped text (`{ __cdata: s }`), or a plain text node. -/
inductive RawVal where
  | missing
  | cdata (s : String)
  | text (s : String)
deriving DecidableEq, Repr

/-- One `<product>` element as parsed from the vendor XML (the fields
`parseProducts` reads). -/
structure RawProduct where
  id : RawVal
  title : RawVal
  link : RawVal
  image_link : RawVal
  price : RawVal
deriving DecidableEq, Repr

/-- Model of the runtime builtin `String.prototype.trim`: strip whitespace
from both ends. -/
def jsTrim (s : String) : String :=
  String.mk (((s.data.dropWhile Char.isWhitespace).reverse.dropWhile Char.isWhitespace).reverse)

/-- The `norm` helper of `parseProducts`: `null`/`undefined` become `""`,
a CDATA wrapper is unwrapped, and the text is trimmed
(`String(v).trim()`). -/
def norm : RawVal → String
  | .missing => ""
  | .cdata s => jsTrim s
  | .text s => jsTrim s

/-- `String.prototype.replace(",", ".")` with a *string* pattern replaces
only the first occurrence; this models that call specialised to
single-character pattern and replacement. -/
def replaceFirstChar (c r : Char) : List Char → List Char
  | [] => []
  | x :: xs => if x = c then r :: xs else x :: replaceFirstChar c r xs

/-- Digits to a natural number, most significant first. -/
def digitsToNat (l : List Char) : Nat :=
  l.foldl (fun a c => 10 * a + (c.toNat - '0'.toNat)) 0

/-- Model of the JavaScript runtime builtin `parseFloat`: parse an optional
sign followed by a decimal number (`digits`, `digits.digits` or `.digits`)
from the front of the string, ignore any trailing garbage, and return
`none` (NaN) when no digit is found.  (The builtin additionally accepts
exponents and `Infinity`; no claim depends on those inputs.) -/
def jsParseFloat (s : String) : Option ℚ :=
  let cs := s.data
  let signRest : ℚ × List Char :=
    match cs with
    | '-' :: r => (-1, r)
    | '+' :: r => (1, r)
    | r => (1, r)
  let rest := signRest.2
  let intDigits := rest.takeWhile Char.isDigit
  let rest2 := rest.dropWhile Char.isDigit
  let fracDigits :=
    match rest2 with
    | '.' :: r => r.takeWhile Char.isDigit
    | _ => []
  if intDigits.isEmpty && fracDigits.isEmpty then none
  else
    some (signRest.1 *
      ((digitsToNat intDigits : ℚ) +
        (digitsToNat fracDigits : ℚ) / ((10 : ℚ) ^ fracDigits.length)))

/-- `parseProducts` after the XML parse: field mapping (`image` ←
`image_link`, comma-to-dot then `parseFloat` for `price`) followed by the
filter that keeps only records whose `id`, `title` and `link` are
non-empty (JavaScript string truthiness).  The surrounding XML parsing
(`XMLParser`, the `Array.isArray` arity fix-up) is the external
`fast-xml-parser` collaborator; its output is the `items` argument. -/
def parseProducts (items : List RawProduct) : List Product :=
  (items.map fun p =>
    { id := norm p.id
      title := norm p.title
      link := norm p.link
      image := norm p.image_link
      price := jsParseFloat (String.mk (replaceFirstChar ',' '.' (norm p.price).data))
      : Product }).filter
    fun p => p.id != "" && p.title != "" && p.link != ""

/-- Structural worker for `sliceChunks` (the fuel keeps the recursion
structural, so that the function evaluates inside the kernel; any fuel at
least the list length gives the same result, see `sliceWithFuel_eq`). -/
def sliceWithFuel {α : Type} (s : Nat) : Nat → List α → List (List α)
  | _, [] => []
  | 0, x :: xs => [x :: xs]
  | fuel + 1, x :: xs => (x :: xs.take (s - 1)) :: sliceWithFuel s fuel (xs.drop (s - 1))

/-- Sequential slicing: the loop
`for (let i = 0; i < array.length; i += s) out.push(array.slice(i, i + s))`
common to both branches of `chunk`. -/
def sliceChunks {α : Type} (s : Nat) (l : List α) : List (List α) :=
  sliceWithFuel s l.length l

/-- `chunk(array, size)` of the source: `size <= 1` puts every product in
its own row; `size === 2` groups `maxProductsPerItem = 8` products per
chunk (four visual rows of two); every other size slices rows of `size`. -/
def chunk {α : Type} (array : List α) (size : Nat) : List (List α) :=
  if size ≤ 1 then array.map fun x => [x]
  else if size = 2 then sliceChunks 8 array
  else sliceChunks size array

@[simp]
theorem sliceWithFuel_nil {α : Type} (s fuel : Nat) :
    sliceWithFuel s fuel ([] : List α) = [] := by
  cases fuel <;> rfl

theorem sliceWithFuel_eq {α : Type} (s : Nat) :
    ∀ (f₁ : Nat) (l : List α) (f₂ : Nat), l.length ≤ f₁ → l.length ≤ f₂ →
      sliceWithFuel s f₁ l = sliceWithFuel s f₂ l := by
  intro f₁
  induction f₁ with
  | zero =>
    intro l f₂ h₁ _
    cases l with
    | nil => simp
    | cons x xs => simp at h₁
  | succ f ih =>
    intro l f₂ h₁ h₂
    cases l with
    | nil => simp
    | cons x xs =>
      cases f₂ with
      | zero => simp at h₂
      | succ f₂ =>
        simp only [sliceWithFuel]
        congr 1
        exact ih (xs.drop (s - 1)) f₂ (by simp [List.length_drop] at *; omega)
          (by simp [List.length_drop] at *; omega)

@[simp]
theorem sliceChunks_nil {α : Type} (s : Nat) : sliceChunks s ([] : List α) = [] := by
  simp [sliceChunks]

@[simp]
theorem sliceChunks_cons {α : Type} (s : Nat) (x : α) (xs : List α) :
    sliceChunks s (x :: xs) = (x :: xs.take (s - 1)) :: sliceChunks s (xs.drop (s - 1)) := by
  show sliceWithFuel s (xs.length + 1) (x :: xs) = _
  simp only [sliceWithFuel]
  congr 1
  exact sliceWithFuel_eq s xs.length (xs.drop (s - 1)) (xs.drop (s - 1)).length
    (by simp [List.length_drop]) le_rfl

theorem sliceChunks_flatten {α : Type} (s : Nat) (l : List α) :
    (sliceChunks s l).flatten = l := by
  have key : ∀ (n : Nat) (l : List α), l.length ≤ n → (sliceChunks s l).flatten = l := by
    intro n
    induction n with
    | zero =>
      intro l h
      cases l with
      | nil => simp
      | cons x xs => simp at h
    | succ n ih =>
      intro l h
      cases l with
      | nil => simp
      | cons x xs =>
        rw [sliceChunks_cons, List.flatten_cons,
          ih (xs.drop (s - 1)) (by simp [List.length_drop] at *; omega)]
        simp [List.take_append_drop]
  exact key l.length l le_rfl

theorem sliceChunks_mem_ne_nil {α : Type} {s : Nat} {l : List α} {c : List α}
    (hc : c ∈ sliceChunks s l) : c ≠ [] := by
  have key : ∀ (n : Nat) (l : List α), l.length ≤ n → c ∈ sliceChunks s l → c ≠ [] := by
    intro n
    induction n with
    | zero =>
      intro l h hc
      cases l with
      | nil => simp at hc
      | cons x xs => simp at h
    | succ n ih =>
      intro l h hc
      cases l with
      | nil => simp at hc
      | cons x xs =>
        rw [sliceChunks_cons] at hc
        rcases List.mem_cons.mp hc with h' | h'
        · subst h'; simp
        · exact ih (xs.drop (s - 1)) (by simp [List.length_drop] at *; omega) h'
  exact key l.length l le_rfl hc

theorem sliceChunks_mem_length {α : Type} {s : Nat} (hs : 1 ≤ s) {l : List α} {c : List α}
    (hc : c ∈ sliceChunks s l) : c.length ≤ s := by
  have key : ∀ (n : Nat) (l : List α), l.length ≤ n → c ∈ sliceChunks s l → c.length ≤ s := by
    intro n
    induction n with
    | zero =>
      intro l h hc
      cases l with
      | nil => simp at hc
      | cons x xs => simp at h
    | succ n ih =>
      intro l h hc
      cases l with
      | nil => simp at hc
      | cons x xs =>
        rw [sliceChunks_cons] at hc
        rcases List.mem_cons.mp hc with h' | h'
        · subst h'
          simp only [List.length_cons, List.length_take]
          omega
        · exact ih (xs.drop (s - 1)) (by simp [List.length_drop] at *; omega) h'
  exact key l.length l le_rfl hc

theorem sliceChunks_get? {α : Type} (s : Nat) (hs : 1 ≤ s) :
    ∀ (k : Nat) (l : List α),
      (sliceChunks s l).get? k =
        if (l.drop (k * s)).isEmpty then none
        else some ((l.drop (k * s)).take s) := by
  intro k
  induction k with
  | zero =>
    intro l
    cases l with
    | nil => simp
    | cons x xs =>
      rw [sliceChunks_cons]
      have : (x :: xs).take s = x :: xs.take (s - 1) := by
        cases s with
        | zero => omega
        | succ n => simp
      simp [this]
  | succ k ih =>
    intro l
    cases l with
    | nil => simp
    | cons x xs =>
      rw [sliceChunks_cons]
      simp only [List.get?_cons_succ]
      rw [ih (xs.drop (s - 1))]
      have hdrop : (xs.drop (s - 1)).drop (k * s) = (x :: xs).drop ((k + 1) * s) := by
        rw [List.drop_drop]
        cases s with
        | zero => omega
        | succ n =>
          have : k * (n + 1) + (n + 1 - 1) + 1 = (k + 1) * (n + 1) := by ring_nf; omega
          simp only [List.drop_succ_cons, ← this, List.drop_drop]
          congr 1
          omega
      rw [hdrop]

/-- `100·q` rounded half away from zero (the rounding
`Number.prototype.toFixed(2)` performs on exactly representable values),
computed on the numerator and denominator with integer operations only:
for `q ≥ 0`, `⌊100·q + 1/2⌋ = (200·num + den) / (2·den)`. -/
def jsRound2 (q : ℚ) : Int :=
  if 0 ≤ q.num then (200 * q.num + (q.den : Int)) / (2 * (q.den : Int))
  else -((200 * (-q.num) + (q.den : Int)) / (2 * (q.den : Int)))

/-- Integer part (with sign) of the `toFixed(2)` rendering of `q`. -/
def toFixed2IntPart (q : ℚ) : String :=
  (if jsRound2 q < 0 then "-" else "") ++ Nat.repr ((jsRound2 q).natAbs / 100)

/-- Model of the runtime builtin `Number.prototype.toFixed(2)` on finite
values: round to hundredths and print with exactly two digits after the
decimal point. -/
def toFixed2 (q : ℚ) : String :=
  toFixed2IntPart q ++ "." ++
    String.mk [Nat.digitChar ((jsRound2 q).natAbs / 10 % 10),
      Nat.digitChar ((jsRound2 q).natAbs % 10)]

/-- The price text of a product card:
`isFinite(p.price) ? p.price.toFixed(2) : esc(p.price)`.  For the NaN case
(`price = none`) JavaScript stringifies the number to `"NaN"` before
escaping. -/
def cardPriceText (price : Option ℚ) : String :=
  match price with
  | some q => toFixed2 q
  | none => esc "NaN"

/-- `productCardHTML(p, perRow)` — the trimmed template literal of the
source, with `widthPercent = Math.floor(100 / perRow)`.  (`.trim()` only
strips the literal leading and trailing whitespace of the template; the
trimmed form is written directly.)  The euro sign is stored mojibake'd in
the source file as U+00E2 U+201A U+00AC. -/
def productCardHTML (p : Product) (perRow : Nat) : String :=
  "<!--[if mso]>\n    <td style=\"vertical-align:top; width:" ++
    toString (100 / perRow) ++
    "%; padding:10px;\">\n    <![endif]-->\n    <!--[if !mso]><!-->\n    <td class=\"product-cell\" style=\"vertical-align:top; width:" ++
    toString (100 / perRow) ++
    "%; padding:10px;\">\n    <!--<![endif]-->\n      <a href=\"" ++ p.link ++
    "\" style=\"text-decoration:none; color:#000; display:flex; flex-direction:column; align-items:center; text-align:center; gap:8px;\">\n        <div style=\"width:100%; display:flex; justify-content:center;\">\n          <img src=\"" ++
    p.image ++ "\" alt=\"" ++ esc p.title ++
    "\"\n               style=\"width:100%; max-width:180px; height:180px; object-fit:contain; display:block;\" />\n        </div>\n        <div style=\"margin:0; font-weight:bold; font-size:14px; line-height:1.3; text-align:center; min-height:40px; width:100%;\">\n          " ++
    esc p.title ++
    "\n        </div>\n        <div style=\"margin-top:0; color:#e60000; font-weight:bold; text-align:center; font-size:16px; width:100%;\">\n          â‚¬ " ++
    cardPriceText p.price ++
    "\n        </div>\n      </a>\n    </td>"

/-- The card template as a context: the same string as `productCardHTML`
but with the (escaped) title and the price text as parameters, used to
state *where* user-supplied text enters the markup. -/
def productCardCtx (p : Product) (perRow : Nat) (escTitle priceText : String) : String :=
  "<!--[if mso]>\n    <td style=\"vertical-align:top; width:" ++
    toString (100 / perRow) ++
    "%; padding:10px;\">\n    <![endif]-->\n    <!--[if !mso]><!-->\n    <td class=\"product-cell\" style=\"vertical-align:top; width:" ++
    toString (100 / perRow) ++
    "%; padding:10px;\">\n    <!--<![endif]-->\n      <a href=\"" ++ p.link ++
    "\" style=\"text-decoration:none; color:#000; display:flex; flex-direction:column; align-items:center; text-align:center; gap:8px;\">\n        <div style=\"width:100%; display:flex; justify-content:center;\">\n          <img src=\"" ++
    p.image ++ "\" alt=\"" ++ escTitle ++
    "\"\n               style=\"width:100%; max-width:180px; height:180px; object-fit:contain; display:block;\" />\n        </div>\n        <div style=\"margin:0; font-weight:bold; font-size:14px; line-height:1.3; text-align:center; min-height:40px; width:100%;\">\n          " ++
    escTitle ++
    "\n        </div>\n        <div style=\"margin-top:0; color:#e60000; font-weight:bold; text-align:center; font-size:16px; width:100%;\">\n          â‚¬ " ++
    priceText ++
    "\n        </div>\n      </a>\n    </td>"

/-- One `<tr>` of the 2-column branch of `rowHTML`: a pair of cards, an
odd pair padded with one empty 50%-width cell. -/
def twoColTr (pair : List Product) : String :=
  "<tr>" ++ jsJoin "" (pair.map fun p => productCardHTML p 2) ++
    (if pair.length < 2 then "<td style=\"width:50%;\"></td>" else "") ++ "</tr>"

/-- The `rows` array of the 2-column branch: the loop
`for (let i = 0; i < productsInRow.length; i += 2)` slices pairs. -/
def twoColRows (productsInRow : List Product) : List String :=
  (sliceChunks 2 productsInRow).map twoColTr

/-- The empty padding cell of the general branch of `rowHTML`. -/
def emptyTdGeneral (perRow : Nat) : String :=
  "<td style=\"width:" ++ toString (100 / perRow) ++ "%;\"></td>"

/-- `cells` of the general branch: the product cards, joined. -/
def generalCells (row : List Product) (perRow : Nat) : String :=
  jsJoin "" (row.map fun p => productCardHTML p perRow)

/-- `emptyHTML` of the general branch:
`emptyCells = perRow - productsInRow.length` (a possibly negative
JavaScript number, hence `Int`); when positive, that many empty cells. -/
def generalEmptyHTML (row : List Product) (perRow : Nat) : String :=
  if (0 : Int) < (perRow : Int) - row.length then
    jsJoin "" (List.replicate ((perRow : Int) - row.length).toNat (emptyTdGeneral perRow))
  else ""

/-- `rowHTML(productsInRow, perRow)`: the 2-column branch emits one table
with one `<tr>` per pair; every other width emits a single `<tr>` padded
with empty cells.  Templates are written post-`.trim()`; CSS braces are
escaped as \x7b/\x7d. -/
def rowHTML (productsInRow : List Product) (perRow : Nat) : String :=
  if perRow = 2 then
    "<![CDATA[\n        <style type=\"text/css\">\n          @media only screen and (max-width: 600px) \x7b\n            .product-cell \x7b\n              width: 100% !important;\n              display: block !important;\n            \x7d\n            .responsive-table \x7b\n              width: 100% !important;\n            \x7d\n            .product-cell img \x7b\n              max-width: 150px !important;\n              height: 150px !important;\n            \x7d\n          \x7d\n        </style>\n        <table role=\"presentation\" cellpadding=\"0\" cellspacing=\"0\" border=\"0\" style=\"width:100%; border-collapse:collapse;\" class=\"responsive-table\">\n          " ++
      jsJoin "" (twoColRows productsInRow) ++
      "\n        </table>\n      ]]>"
  else
    "<![CDATA[\n      <style type=\"text/css\">\n        @media only screen and (max-width: 600px) \x7b\n          .product-cell \x7b\n            width: " ++
      (if perRow > 2 then "50" else "100") ++
      "% !important;\n            display: " ++
      (if perRow > 2 then "inline-block" else "block") ++
      " !important;\n          \x7d\n          .responsive-table \x7b\n            width: 100% !important;\n          \x7d\n          .product-cell img \x7b\n            max-width: 150px !important;\n            height: 150px !important;\n          \x7d\n        \x7d\n        @media only screen and (max-width: 400px) \x7b\n          .product-cell \x7b\n            width: 100% !important;\n            display: block !important;\n          \x7d\n        \x7d\n      </style>\n      <table role=\"presentation\" cellpadding=\"0\" cellspacing=\"0\" border=\"0\" style=\"width:100%; border-collapse:collapse;\" class=\"responsive-table\">\n        <tr>\n          " ++
      generalCells productsInRow perRow ++
      "\n          " ++
      generalEmptyHTML productsInRow perRow ++
      "\n        </tr>\n      </table>\n    ]]>"

/-- JavaScript `a || b` on strings (the empty string is falsy). -/
def jsOrStr (a b : String) : String := if a = "" then b else a

/-- The site defaults object (`config.site`). -/
structure SiteConfig where
  title : String
  link : String
  description : String
  language : String
deriving DecidableEq, Repr

/-- The per-item title computed in `toRss`.  The separator is the
mojibake'd en dash U+00E2 U+20AC U+201C of the source file. -/
def itemTitle (feedTitle : String) (perRow numChunks idx : Nat) : String :=
  if perRow = 2 then
    feedTitle ++ " â€“ " ++ toString perRow ++ " kolommen"
  else if numChunks > 1 then
    feedTitle ++ " â€“ " ++ toString perRow ++ " per rij â€“ set " ++
      toString (idx + 1)
  else
    feedTitle ++ " â€“ " ++ toString perRow ++ " per rij"

/-- `const firstLink = chunk[0]?.link || site.link;` -/
def firstLink (site : SiteConfig) (row : List Product) : String :=
  match row.head? with
  | some p => jsOrStr p.link site.link
  | none => site.link

/-- `firstImage ? `<enclosure url="…" length="0" type="image/jpeg" />` : ""`. -/
def enclosureStr (row : List Product) : String :=
  match row.head? with
  | some p =>
      if p.image = "" then ""
      else "<enclosure url=\"" ++ p.image ++ "\" length=\"0\" type=\"image/jpeg\" />"
  | none => ""

/-- `chunk[0]?.id || Date.now()` inside the guid ( `now` is the
`Date.now()` value, stringified on interpolation). -/
def guidTail (row : List Product) (now : Nat) : String :=
  match row.head? with
  | some p => if p.id = "" then toString now else p.id
  | none => toString now

/-- One `<item>` element of `toRss` (the trimmed per-chunk template). -/
def itemXmlStr (site : SiteConfig) (feedTitle : String) (numChunks perRow : Nat)
    (pubDate : String) (now : Nat) (idx : Nat) (row : List Product) : String :=
  "<item>\n        <title>" ++ esc (itemTitle feedTitle perRow numChunks idx) ++
    "</title>\n        <link>" ++ firstLink site row ++
    "</link>\n        <guid isPermaLink=\"false\">" ++
    esc (feedTitle ++ "-" ++ toString perRow ++ "-" ++ toString (idx + 1) ++ "-" ++
      guidTail row now) ++
    "</guid>\n        <pubDate>" ++ pubDate ++
    "</pubDate>\n        <description>\n          " ++ rowHTML row perRow ++
    "\n        </description>\n        " ++ enclosureStr row ++
    "\n      </item>"

/-- `Array.prototype.map((x, idx) => …)` with an explicit start index. -/
def mapIdxFrom {α β : Type} (f : Nat → α → β) : Nat → List α → List β
  | _, [] => []
  | i, x :: xs => f i x :: mapIdxFrom f (i + 1) xs

/-- `toRss({site, feedTitle, itemsChunks, perRow})`.  The render time
enters as `pubDate` (`new Date().toUTCString()`) and `now` (`Date.now()`,
used only in the guid fallback). -/
def toRss (site : SiteConfig) (feedTitle : String) (itemsChunks : List (List Product))
    (perRow : Nat) (pubDate : String) (now : Nat) : String :=
  let itemXml :=
    jsJoin "\n" (mapIdxFrom (itemXmlStr site feedTitle itemsChunks.length perRow pubDate now)
      0 itemsChunks)
  "<?xml version=\"1.0\" encoding=\"UTF-8\"?>\n<rss version=\"2.0\">\n  <channel>\n    <title>" ++
    esc (jsOrStr feedTitle site.title) ++ "</title>\n    <link>" ++ site.link ++
    "</link>\n    <description>" ++ esc (jsOrStr site.description "Proxy feed") ++
    "</description>\n    <language>" ++ jsOrStr site.language "nl-NL" ++
    "</language>\n    <lastBuildDate>" ++ pubDate ++ "</lastBuildDate>\n    " ++
    itemXml ++ "\n  </channel>\n</rss>"

/-- JavaScript `v || d` on numbers (`0` is falsy; `none` is an absent
config field). -/
def jsOrNum (v : Option Nat) (d : Nat) : Nat :=
  match v with
  | none => d
  | some n => if n = 0 then d else n

/-- The output file name computed in `buildOneVariant`:
`` const suffix = perRow === (feed.default_per_row || 3) ? "" : `-r${perRow}` ``,
`` `${feed.slug}${suffix}.xml` ``. -/
def fileName (slug : String) (perRow : Nat) (default_per_row : Option Nat) : String :=
  slug ++ (if perRow = jsOrNum default_per_row 3 then "" else "-r" ++ toString perRow) ++
    ".xml"

/-- The rendering pipeline of `buildOneVariant`:
`chunk(products, Math.max(1, perRow))` followed by `toRss`. -/
def renderVariant (site : SiteConfig) (feedTitle : String) (products : List Product)
    (perRow : Nat) (pubDate : String) (now : Nat) : String :=
  toRss site feedTitle (chunk products (max 1 perRow)) perRow pubDate now

theorem escL_append (a b : List Char) : escL (a ++ b) = escL a ++ escL b := by
  simp [escL, replaceAllChar, List.flatMap_append]

theorem escL_singleton (c : Char) : escL [c] = escChar c := by
  by_cases h1 : c = '&'
  · subst h1; rfl
  · by_cases h2 : c = '<'
    · subst h2; rfl
    · by_cases h3 : c = '>'
      · subst h3; rfl
      · simp [escL, replaceAllChar, escChar, h1, h2, h3]

theorem escL_eq_flatMap (s : List Char) : escL s = s.flatMap escChar := by
  induction s with
  | nil => rfl
  | cons c cs ih =>
    have hsplit : c :: cs = [c] ++ cs := rfl
    rw [hsplit, escL_append, escL_singleton, List.flatMap_append, ih]
    simp

theorem escL_no_lt (s : List Char) : '<' ∉ escL s := by
  rw [escL_eq_flatMap]
  intro h
  obtain ⟨c, hc, hmem⟩ := List.mem_flatMap.mp h
  unfold escChar at hmem
  split_ifs at hmem with h1 h2 h3
  · exact absurd hmem (by decide)
  · exact absurd hmem (by decide)
  · exact absurd hmem (by decide)
  · exact h2 (List.mem_singleton.mp hmem).symm

theorem escL_no_gt (s : List Char) : '>' ∉ escL s := by
  rw [escL_eq_flatMap]
  intro h
  obtain ⟨c, hc, hmem⟩ := List.mem_flatMap.mp h
  unfold escChar at hmem
  split_ifs at hmem with h1 h2 h3
  · exact absurd hmem (by decide)
  · exact absurd hmem (by decide)
  · exact absurd hmem (by decide)
  · exact h3 (List.mem_singleton.mp hmem).symm

theorem jsJoin_cons (sep a : String) (l : List String) :
    jsJoin sep (a :: l) = a ++ (if l.isEmpty then "" else sep ++ jsJoin sep l) := by
  cases l <;> simp [jsJoin, String.append_assoc]

theorem jsJoin_nosep_append (a b : List String) :
    jsJoin "" (a ++ b) = jsJoin "" a ++ jsJoin "" b := by
  induction a with
  | nil => simp [jsJoin]
  | cons x a ih =>
    cases a with
    | nil =>
      cases b with
      | nil => simp [jsJoin]
      | cons y b => simp [jsJoin]
    | cons z a' =>
      simp only [List.cons_append] at ih ⊢
      simp [jsJoin_cons, ih, String.append_assoc]

theorem chunk_flatten {α : Type} (l : List α) (size : Nat) :
    (chunk l size).flatten = l := by
  unfold chunk
  split_ifs with h1 h2
  · induction l with
    | nil => simp
    | cons x xs ih => simpa using ih
  · exact sliceChunks_flatten 8 l
  · exact sliceChunks_flatten size l

theorem chunk_mem_ne_nil {α : Type} {l : List α} {size : Nat} {c : List α}
    (hc : c ∈ chunk l size) : c ≠ [] := by
  unfold chunk at hc
  split_ifs at hc
  · obtain ⟨x, hx, rfl⟩ := List.mem_map.mp hc
    simp
  · exact sliceChunks_mem_ne_nil hc
  · exact sliceChunks_mem_ne_nil hc

theorem chunk_mem_mem {α : Type} {l : List α} {size : Nat} {c : List α} {p : α}
    (hc : c ∈ chunk l size) (hp : p ∈ c) : p ∈ l := by
  have := List.mem_flatten.mpr ⟨c, hc, hp⟩
  rwa [chunk_flatten] at this

/-- **C1.** For every product list and every width `w ≥ 2`, `chunk` groups
the products sequentially into contiguous blocks of a fixed size `s`
(`s = 8` for the width-2 policy, `s = w` otherwise): block `k` holds
exactly the products at positions `[k·s, (k+1)·s)`, the final block may be
shorter, and an empty input yields zero rows. -/
theorem chunk_sequential_blocks (products : List Product) (w : Nat) (hw : 2 ≤ w) :
    (∀ k : Nat,
        (chunk products w).get? k =
          if (products.drop (k * (if w = 2 then 8 else w))).isEmpty then none
          else some ((products.drop (k * (if w = 2 then 8 else w))).take
            (if w = 2 then 8 else w))) ∧
    (products = [] → chunk products w = []) := by
  constructor
  · intro k
    by_cases h2 : w = 2
    · subst h2
      simp only [if_pos rfl]
      show (sliceChunks 8 products).get? k = _
      exact sliceChunks_get? 8 (by omega) k products
    · simp only [if_neg h2]
      have hc : chunk products w = sliceChunks w products := by
        unfold chunk
        rw [if_neg (by omega), if_neg h2]
      rw [hc]
      exact sliceChunks_get? w (by omega) k products
  · rintro rfl
    unfold chunk
    split_ifs <;> simp

/-- Witness for C1: three products at width 2 form a single block
(positions `[0, 8)`), and the empty list yields zero rows. -/
theorem chunk_sequential_blocks_witness :
    ((chunk [(⟨"a", "A", "la", "", none⟩ : Product), ⟨"b", "B", "lb", "", none⟩,
        ⟨"c", "C", "lc", "", none⟩] 2).get? 0 =
      if (([(⟨"a", "A", "la", "", none⟩ : Product), ⟨"b", "B", "lb", "", none⟩,
          ⟨"c", "C", "lc", "", none⟩].drop (0 * 8)).isEmpty) then none
      else some (([(⟨"a", "A", "la", "", none⟩ : Product), ⟨"b", "B", "lb", "", none⟩,
          ⟨"c", "C", "lc", "", none⟩].drop (0 * 8)).take 8)) ∧
    (([] : List Product) = [] → chunk ([] : List Product) 2 = []) :=
  ⟨by
    have h := (chunk_sequential_blocks
      [⟨"a", "A", "la", "", none⟩, ⟨"b", "B", "lb", "", none⟩,
        ⟨"c", "C", "lc", "", none⟩] 2 (by omega)).1 0
    simpa using h,
   (chunk_sequential_blocks ([] : List Product) 2 (by omega)).2⟩

/-- **C2.** For every product list and every width `w ≥ 2`, concatenating
the rows produced by `chunk` in order reproduces the original list exactly
(both the width-2 super-group branch and the general branch are
order-preserving and lossless). -/
theorem chunk_concat_reproduces (products : List Product) (w : Nat) (hw : 2 ≤ w) :
    (chunk products w).flatten = products := by
  unfold chunk
  split_ifs with h1 h2
  · exact absurd h1 (by omega)
  · exact sliceChunks_flatten 8 products
  · exact sliceChunks_flatten w products

/-- Witness for C2 at width 2 (nine products, two super-group blocks) and
width 3. -/
theorem chunk_concat_reproduces_witness :
    (chunk [(⟨"a", "A", "la", "", none⟩ : Product), ⟨"b", "B", "lb", "", none⟩,
        ⟨"c", "C", "lc", "", none⟩] 2).flatten =
      [(⟨"a", "A", "la", "", none⟩ : Product), ⟨"b", "B", "lb", "", none⟩,
        ⟨"c", "C", "lc", "", none⟩] ∧
    (chunk [(⟨"a", "A", "la", "", none⟩ : Product), ⟨"b", "B", "lb", "", none⟩,
        ⟨"c", "C", "lc", "", none⟩, ⟨"d", "D", "ld", "", none⟩] 3).flatten =
      [(⟨"a", "A", "la", "", none⟩ : Product), ⟨"b", "B", "lb", "", none⟩,
        ⟨"c", "C", "lc", "", none⟩, ⟨"d", "D", "ld", "", none⟩] :=
  ⟨chunk_concat_reproduces _ 2 (by omega), chunk_concat_reproduces _ 3 (by omega)⟩

/-- **C3.** Every product record in the list returned by `parseProducts`
has non-empty `id`, `title` and `link`; a record empty in any of the three
is filtered out and never appears in the output. -/
theorem parseProducts_fields_nonempty (items : List RawProduct) :
    ∀ p ∈ parseProducts items, p.id ≠ "" ∧ p.title ≠ "" ∧ p.link ≠ "" := by
  intro p hp
  have h := (List.mem_filter.mp hp).2
  simp only [Bool.and_eq_true, bne_iff_ne, ne_eq] at h
  exact ⟨h.1.1, h.1.2, h.2⟩

/-- Witness for C3: a concrete raw feed where one record survives (its
trimmed CDATA title non-empty) — the fields of the surviving record are
non-empty. -/
theorem parseProducts_fields_nonempty_witness :
    ("1" : String) ≠ "" ∧ ("Game" : String) ≠ "" ∧ ("http://x" : String) ≠ "" :=
  parseProducts_fields_nonempty
    [⟨RawVal.text "1", RawVal.cdata " Game ", RawVal.text "http://x",
      RawVal.missing, RawVal.missing⟩]
    ⟨"1", "Game", "http://x", "", none⟩ (by decide)

/-- **C7.** The product title enters the card markup only through `esc`;
`esc` output contains no literal `<` or `>` and rewrites every character
by `&` ↦ `&amp;`, `<` ↦ `&lt;`, `>` ↦ `&gt;` (so every `&` in the output
starts an entity); in particular the title `<script>&"'</script>` renders
with all `<`, `>`, `&` escaped. -/
theorem card_title_escaping :
    (∀ (p : Product) (perRow : Nat),
        productCardHTML p perRow =
          productCardCtx p perRow (esc p.title) (cardPriceText p.price)) ∧
    (∀ title : String,
        '<' ∉ (esc title).data ∧ '>' ∉ (esc title).data ∧
          (esc title).data = title.data.flatMap escChar) ∧
    esc "<script>&\"'</script>" = "&lt;script&gt;&amp;\"'&lt;/script&gt;" := by
  refine ⟨fun p perRow => rfl, fun title => ⟨?_, ?_, ?_⟩, by decide⟩
  · exact escL_no_lt _
  · exact escL_no_gt _
  · exact escL_eq_flatMap _

theorem digitChar_isDigit {k : Nat} (hk : k < 10) : (Nat.digitChar k).isDigit = true := by
  interval_cases k <;> decide

/-- Counterexample for C4: at width 2 with two chunks, the item title is
`"{feedTitle} â€“ 2 kolommen"` — not the `"… per row/per rij"` form, and it
carries no `"set"` suffix even though more than one row exists. -/
theorem itemTitle_width2_counterexample :
    itemTitle "Feed" 2 2 0 = "Feed â€“ 2 kolommen" ∧
    itemTitle "Feed" 2 2 0 ≠ "Feed â€“ 2 per rij â€“ set 1" ∧
    itemTitle "Feed" 2 2 0 ≠ "Feed â€“ 2 per rij" ∧
    itemTitle "Feed" 2 2 0 ≠ "Feed – 2 per row – set 1" ∧
    itemTitle "Feed" 2 2 0 ≠ "Feed – 2 per row" := by
  decide

/-- **C4 (amended).** For width ≠ 2, each item title is
`"{feedTitle} â€“ {width} per rij"`, with `"â€“ set {n}"` appended exactly
when more than one chunk exists (`n` the 1-based index); for width 2 the
title is always `"{feedTitle} â€“ 2 kolommen"`, with no set suffix. -/
theorem itemTitle_characterization (feedTitle : String) (perRow numChunks idx : Nat) :
    (perRow = 2 → itemTitle feedTitle perRow numChunks idx =
        feedTitle ++ " â€“ 2 kolommen") ∧
    (perRow ≠ 2 → 1 < numChunks → itemTitle feedTitle perRow numChunks idx =
        feedTitle ++ " â€“ " ++ toString perRow ++ " per rij â€“ set " ++
          toString (idx + 1)) ∧
    (perRow ≠ 2 → numChunks ≤ 1 → itemTitle feedTitle perRow numChunks idx =
        feedTitle ++ " â€“ " ++ toString perRow ++ " per rij") := by
  refine ⟨fun h => ?_, fun h hn => ?_, fun h hn => ?_⟩
  · subst h
    unfold itemTitle
    rw [if_pos rfl, String.append_assoc, String.append_assoc]
    congr 1
  · unfold itemTitle
    rw [if_neg h, if_pos hn]
  · unfold itemTitle
    rw [if_neg h, if_neg (by omega : ¬ numChunks > 1)]

/-- Witness for C4: both branches at concrete widths and chunk counts. -/
theorem itemTitle_characterization_witness :
    itemTitle "F" 2 5 0 = "F" ++ " â€“ 2 kolommen" ∧
    itemTitle "F" 3 2 1 =
      "F" ++ " â€“ " ++ toString 3 ++ " per rij â€“ set " ++ toString 2 ∧
    itemTitle "F" 3 1 0 = "F" ++ " â€“ " ++ toString 3 ++ " per rij" :=
  ⟨(itemTitle_characterization "F" 2 5 0).1 rfl,
   (itemTitle_characterization "F" 3 2 1).2.1 (by decide) (by decide),
   (itemTitle_characterization "F" 3 1 0).2.2 (by decide) (by decide)⟩

/-- **C5.** The card's price slot renders `toFixed(2)` of the price when
it is finite — a string ending in a decimal point and exactly two digits —
and the fixed placeholder text `"NaN"` (the escaped stringification of
JavaScript `NaN`) when the price is not finite; the price enters the
template only through `cardPriceText`. -/
theorem card_price_rendering (p : Product) (perRow : Nat) :
    productCardHTML p perRow =
      productCardCtx p perRow (esc p.title) (cardPriceText p.price) ∧
    (∀ q : ℚ, p.price = some q →
        cardPriceText p.price = toFixed2 q ∧
        ∃ d1 d2 : Char, toFixed2 q = toFixed2IntPart q ++ "." ++ String.mk [d1, d2] ∧
          d1.isDigit = true ∧ d2.isDigit = true) ∧
    (p.price = none → cardPriceText p.price = "NaN") := by
  refine ⟨rfl, fun q hq => ?_, fun h => ?_⟩
  · rw [hq]
    refine ⟨rfl, Nat.digitChar ((jsRound2 q).natAbs / 10 % 10),
      Nat.digitChar ((jsRound2 q).natAbs % 10), ?_, ?_, ?_⟩
    · simp [toFixed2, String.append_assoc]
    · exact digitChar_isDigit (Nat.mod_lt _ (by omega))
    · exact digitChar_isDigit (Nat.mod_lt _ (by omega))
  · rw [h]
    decide

/-- Witness for C5: a finite price renders via `toFixed2`, an unparsable
(NaN) price renders the `"NaN"` placeholder. -/
theorem card_price_rendering_witness :
    (cardPriceText (some (5 : ℚ)) = toFixed2 (5 : ℚ) ∧
      ∃ d1 d2 : Char,
        toFixed2 (5 : ℚ) = toFixed2IntPart (5 : ℚ) ++ "." ++ String.mk [d1, d2] ∧
          d1.isDigit = true ∧ d2.isDigit = true) ∧
    cardPriceText none = "NaN" :=
  ⟨(card_price_rendering ⟨"i", "t", "l", "", some 5⟩ 3).2.1 5 rfl,
   (card_price_rendering ⟨"i", "t", "l", "", none⟩ 3).2.2 rfl⟩

/-- **C6.** The output file name is `{slug}.xml` exactly when the width
equals the effective default (`feed.default_per_row || 3`), and
`{slug}-r{width}.xml` for every other width; the two names never collide,
and an absent `default_per_row` defaults to 3. -/
theorem fileName_policy (slug : String) (w : Nat) (d : Option Nat) :
    (w = jsOrNum d 3 → fileName slug w d = slug ++ ".xml") ∧
    (w ≠ jsOrNum d 3 → fileName slug w d = slug ++ "-r" ++ toString w ++ ".xml") ∧
    slug ++ ".xml" ≠ slug ++ "-r" ++ toString w ++ ".xml" ∧
    (d = none → jsOrNum d 3 = 3) := by
  refine ⟨fun h => ?_, fun h => ?_, fun h => ?_, fun h => by subst h; rfl⟩
  · unfold fileName
    rw [if_pos h]
    simp
  · unfold fileName
    rw [if_neg h]
    simp [String.append_assoc]
  · have hlen := congrArg String.length h
    have e1 : (".xml" : String).length = 4 := rfl
    have e2 : ("-r" : String).length = 2 := rfl
    rw [String.length_append, String.length_append, String.length_append,
      String.length_append, e1, e2] at hlen
    omega

/-- Witness for C6: at the default width the base name, at another width
the suffixed name. -/
theorem fileName_policy_witness :
    fileName "feed" 3 none = "feed" ++ ".xml" ∧
    fileName "feed" 4 none = "feed" ++ "-r" ++ toString 4 ++ ".xml" :=
  ⟨(fileName_policy "feed" 3 none).1 (by decide),
   (fileName_policy "feed" 4 none).2.1 (by decide)⟩

/-- **C9.** Every row produced by `chunk` is non-empty (for any width and
input); consequently, for products that passed normalization (non-empty
`id` and `link`), the item link is always the first product's link and the
guid tail is always the first product's id — the `site.link` and
`Date.now()` fallbacks in `toRss` are unreachable. -/
theorem chunk_rows_nonempty_no_fallbacks (site : SiteConfig) (products : List Product)
    (w : Nat) (hw : 1 ≤ w) (now : Nat) :
    (∀ row ∈ chunk products w, row ≠ []) ∧
    ((∀ p ∈ products, p.id ≠ "" ∧ p.link ≠ "") →
      ∀ row ∈ chunk products w, ∃ p r, row = p :: r ∧
        firstLink site row = p.link ∧ guidTail row now = p.id) := by
  constructor
  · intro row hrow
    exact chunk_mem_ne_nil hrow
  · intro h row hrow
    obtain ⟨p, r, rfl⟩ : ∃ p r, row = p :: r := by
      cases row with
      | nil => exact absurd rfl (chunk_mem_ne_nil hrow)
      | cons p r => exact ⟨p, r, rfl⟩
    obtain ⟨hid, hlink⟩ := h p (chunk_mem_mem hrow (by simp))
    refine ⟨p, r, rfl, ?_, ?_⟩
    · simp [firstLink, jsOrStr, hlink]
    · simp [guidTail, hid]

/-- Witness for C9: a one-product feed at width 1. -/
theorem chunk_rows_nonempty_no_fallbacks_witness :
    ([(⟨"1", "T", "http://l", "", none⟩ : Product)] ≠ []) ∧
    (∃ p r, [(⟨"1", "T", "http://l", "", none⟩ : Product)] = p :: r ∧
      firstLink ⟨"S", "http://s", "D", "nl"⟩
        [(⟨"1", "T", "http://l", "", none⟩ : Product)] = p.link ∧
      guidTail [(⟨"1", "T", "http://l", "", none⟩ : Product)] 42 = p.id) :=
  ⟨(chunk_rows_nonempty_no_fallbacks ⟨"S", "http://s", "D", "nl"⟩
      [⟨"1", "T", "http://l", "", none⟩] 1 (by decide) 42).1
      [⟨"1", "T", "http://l", "", none⟩] (by decide),
   (chunk_rows_nonempty_no_fallbacks ⟨"S", "http://s", "D", "nl"⟩
      [⟨"1", "T", "http://l", "", none⟩] 1 (by decide) 42).2 (by decide)
      [⟨"1", "T", "http://l", "", none⟩] (by decide)⟩

/-- The cell list of the general (width ≠ 2) branch of `rowHTML`: the
product cards followed by the empty padding cells. -/
def generalRowCells (row : List Product) (w : Nat) : List String :=
  row.map (fun p => productCardHTML p w) ++
    List.replicate (w - row.length) (emptyTdGeneral w)

/-- **C10.** For width ≠ 2, a row of `n ≤ w` products is padded to exactly
`w` table cells — `n` product cells followed by `w − n` empty cells, and
the emitted cell markup is exactly the join of that list; for width 2,
every `<tr>` of the table holds exactly two cells, an odd final pair being
padded with one empty 50%-width cell. -/
theorem rowHTML_padding (row : List Product) (w : Nat) :
    (w ≠ 2 → row.length ≤ w →
      (generalRowCells row w).length = w ∧
      (generalRowCells row w).take row.length =
        row.map (fun p => productCardHTML p w) ∧
      (generalRowCells row w).drop row.length =
        List.replicate (w - row.length) (emptyTdGeneral w) ∧
      generalCells row w ++ generalEmptyHTML row w =
        jsJoin "" (generalRowCells row w)) ∧
    (w = 2 → ∀ pair ∈ sliceChunks 2 row,
      1 ≤ pair.length ∧ pair.length ≤ 2 ∧
      (pair.map fun p => productCardHTML p 2).length +
        (if pair.length < 2 then 1 else 0) = 2) := by
  constructor
  · intro hw hn
    refine ⟨?_, ?_, ?_, ?_⟩
    · simp only [generalRowCells, List.length_append, List.length_map,
        List.length_replicate]
      omega
    · rw [show row.length = (row.map fun p => productCardHTML p w).length by
        simp, generalRowCells, List.take_left]
    · rw [show row.length = (row.map fun p => productCardHTML p w).length by
        simp, generalRowCells, List.drop_left, List.length_map]
    · rw [generalRowCells, jsJoin_nosep_append]
      congr 1
      unfold generalEmptyHTML
      rcases Nat.lt_or_ge row.length w with hlt | hge
      · rw [if_pos (by omega)]
        congr 2
        omega
      · have heq : row.length = w := le_antisymm hn hge
        rw [if_neg (by omega)]
        simp [heq, jsJoin]
  · intro hw pair hpair
    have h1 : pair ≠ [] := sliceChunks_mem_ne_nil hpair
    have h2 : pair.length ≤ 2 := sliceChunks_mem_length (by omega) hpair
    have h0 : 0 < pair.length := List.length_pos.mpr h1
    refine ⟨h0, h2, ?_⟩
    rw [List.length_map]
    split_ifs <;> omega

/-- Witness for C10: a 2-product row at width 3 (one empty padding cell),
and the odd final pair of a 3-product row at width 2. -/
theorem rowHTML_padding_witness :
    ((generalRowCells [(⟨"a", "A", "la", "", none⟩ : Product),
        ⟨"b", "B", "lb", "", none⟩] 3).length = 3 ∧
      (generalRowCells [(⟨"a", "A", "la", "", none⟩ : Product),
          ⟨"b", "B", "lb", "", none⟩] 3).take
          ([(⟨"a", "A", "la", "", none⟩ : Product),
            ⟨"b", "B", "lb", "", none⟩].length) =
        [(⟨"a", "A", "la", "", none⟩ : Product),
          ⟨"b", "B", "lb", "", none⟩].map (fun p => productCardHTML p 3) ∧
      (generalRowCells [(⟨"a", "A", "la", "", none⟩ : Product),
          ⟨"b", "B", "lb", "", none⟩] 3).drop
          ([(⟨"a", "A", "la", "", none⟩ : Product),
            ⟨"b", "B", "lb", "", none⟩].length) =
        List.replicate (3 - [(⟨"a", "A", "la", "", none⟩ : Product),
          ⟨"b", "B", "lb", "", none⟩].length) (emptyTdGeneral 3) ∧
      generalCells [(⟨"a", "A", "la", "", none⟩ : Product),
          ⟨"b", "B", "lb", "", none⟩] 3 ++
        generalEmptyHTML [(⟨"a", "A", "la", "", none⟩ : Product),
          ⟨"b", "B", "lb", "", none⟩] 3 =
        jsJoin "" (generalRowCells [(⟨"a", "A", "la", "", none⟩ : Product),
          ⟨"b", "B", "lb", "", none⟩] 3)) ∧
    (1 ≤ ([(⟨"c", "C", "lc", "", none⟩ : Product)] : List Product).length ∧
      ([(⟨"c", "C", "lc", "", none⟩ : Product)] : List Product).length ≤ 2 ∧
      (([(⟨"c", "C", "lc", "", none⟩ : Product)] : List Product).map
          fun p => productCardHTML p 2).length +
        (if ([(⟨"c", "C", "lc", "", none⟩ : Product)] : List Product).length < 2
          then 1 else 0) = 2) :=
  ⟨(rowHTML_padding [⟨"a", "A", "la", "", none⟩, ⟨"b", "B", "lb", "", none⟩] 3).1
      (by decide) (by decide),
   (rowHTML_padding [⟨"a", "A", "la", "", none⟩, ⟨"b", "B", "lb", "", none⟩,
      ⟨"c", "C", "lc", "", none⟩] 2).2 rfl [⟨"c", "C", "lc", "", none⟩] (by decide)⟩

theorem jsJoin_cons_ne (sep a : String) (l : List String) (hl : l ≠ []) :
    jsJoin sep (a :: l) = a ++ sep ++ jsJoin sep l := by
  cases l with
  | nil => exact absurd rfl hl
  | cons b r => rfl

/-- First product id of a row, `""` for an empty row (the value the guid
embeds once the `Date.now()` fallback is known to be unreachable). -/
def headIdD (row : List Product) : String := (row.head?.map Product.id).getD ""

/-- The channel markup of `toRss` up to (and including) the
`<lastBuildDate>` open tag — everything before the first timestamp
insertion. -/
def chanHead (site : SiteConfig) (feedTitle : String) : String :=
  "<?xml version=\"1.0\" encoding=\"UTF-8\"?>\n<rss version=\"2.0\">\n  <channel>\n    <title>" ++
    esc (jsOrStr feedTitle site.title) ++ "</title>\n    <link>" ++ site.link ++
    "</link>\n    <description>" ++ esc (jsOrStr site.description "Proxy feed") ++
    "</description>\n    <language>" ++ jsOrStr site.language "nl-NL" ++
    "</language>\n    <lastBuildDate>"

/-- The markup between the `lastBuildDate` value and the first item. -/
def afterLastBuild : String := "</lastBuildDate>\n    "

/-- The markup after the last item. -/
def rssTail : String := "\n  </channel>\n</rss>"

/-- The part of an `<item>` before its `pubDate` value (with the guid tail
written as the first product's id — valid when the `Date.now()` fallback
is unreachable). -/
def itemPre (site : SiteConfig) (feedTitle : String) (numChunks perRow idx : Nat)
    (row : List Product) : String :=
  "<item>\n        <title>" ++ esc (itemTitle feedTitle perRow numChunks idx) ++
    "</title>\n        <link>" ++ firstLink site row ++
    "</link>\n        <guid isPermaLink=\"false\">" ++
    esc (feedTitle ++ "-" ++ toString perRow ++ "-" ++ toString (idx + 1) ++ "-" ++
      headIdD row) ++
    "</guid>\n        <pubDate>"

/-- The part of an `<item>` after its `pubDate` value. -/
def itemPost (perRow : Nat) (row : List Product) : String :=
  "</pubDate>\n        <description>\n          " ++ rowHTML row perRow ++
    "\n        </description>\n        " ++ enclosureStr row ++
    "\n      </item>"

/-- The timestamp-independent pieces of the document after the channel
head: one piece per gap between consecutive timestamp slots. -/
def restPieces (site : SiteConfig) (feedTitle : String) (numChunks perRow : Nat) :
    Nat → List (List Product) → String → List String
  | _, [], acc => [acc ++ rssTail]
  | i, c :: cs, acc =>
      (acc ++ (if i = 0 then "" else "\n") ++
        itemPre site feedTitle numChunks perRow i c) ::
        restPieces site feedTitle numChunks perRow (i + 1) cs (itemPost perRow c)

/-- All timestamp-independent pieces of a rendered variant: the document
is their `jsJoin` with the timestamp as separator (one slot for
`lastBuildDate`, one per item `pubDate`). -/
def rssPieces (site : SiteConfig) (feedTitle : String) (products : List Product)
    (perRow : Nat) : List String :=
  let cs := chunk products (max 1 perRow)
  chanHead site feedTitle ::
    restPieces site feedTitle cs.length perRow 0 cs afterLastBuild

theorem restPieces_ne_nil (site : SiteConfig) (ft : String) (n w i : Nat)
    (cs : List (List Product)) (acc : String) :
    restPieces site ft n w i cs acc ≠ [] := by
  cases cs <;> simp [restPieces]

theorem itemXmlStr_split (site : SiteConfig) (ft : String) (n w : Nat) (t : String)
    (now : Nat) (i : Nat) (row : List Product) (p : Product) (r : List Product)
    (hrow : row = p :: r) (hid : p.id ≠ "") :
    itemXmlStr site ft n w t now i row =
      itemPre site ft n w i row ++ t ++ itemPost w row := by
  subst hrow
  unfold itemXmlStr itemPre itemPost headIdD guidTail
  simp [hid, String.append_assoc]

theorem restPieces_join (site : SiteConfig) (ft : String) (n w : Nat) (t : String)
    (now : Nat) :
    ∀ (cs : List (List Product)) (i : Nat) (acc : String),
      (∀ c ∈ cs, ∃ p r, c = p :: r ∧ p.id ≠ "") →
      jsJoin t (restPieces site ft n w i cs acc) =
        acc ++ (if cs.isEmpty then rssTail
          else (if i = 0 then "" else "\n") ++
            jsJoin "\n" (mapIdxFrom (itemXmlStr site ft n w t now) i cs) ++ rssTail) := by
  intro cs
  induction cs with
  | nil =>
    intro i acc _
    simp [restPieces, jsJoin]
  | cons c cs ih =>
    intro i acc h
    obtain ⟨p, r, hc, hid⟩ := h c (List.mem_cons_self c cs)
    have hsplit := itemXmlStr_split site ft n w t now i c p r hc hid
    have hstep : restPieces site ft n w i (c :: cs) acc =
        (acc ++ (if i = 0 then "" else "\n") ++ itemPre site ft n w i c) ::
          restPieces site ft n w (i + 1) cs (itemPost w c) := rfl
    rw [hstep, jsJoin_cons_ne _ _ _ (restPieces_ne_nil site ft n w (i + 1) cs _),
      ih (i + 1) (itemPost w c) (fun x hx => h x (List.mem_cons_of_mem _ hx))]
    cases cs with
    | nil =>
      simp only [List.isEmpty_nil, if_pos, List.isEmpty_cons, mapIdxFrom, jsJoin]
      rw [hsplit]
      simp [String.append_assoc]
    | cons c2 cs2 =>
      simp only [List.isEmpty_cons, Bool.false_eq_true, if_false,
        Nat.add_one_ne_zero, mapIdxFrom, jsJoin]
      rw [hsplit]
      simp [String.append_assoc]

/-- **C8.** Rendering (`chunk` followed by `toRss`) depends on the render
time only through the timestamp slots: for any fixed site, feed title,
normalized product list (non-empty ids) and width, the document equals the
time-independent `rssPieces` joined with the `pubDate` string as
separator — so two renders at different times differ exactly in the
`lastBuildDate`/`pubDate` values (and the `Date.now()` guid fallback is
never exercised). -/
theorem toRss_deterministic_modulo_timestamp (site : SiteConfig) (feedTitle : String)
    (products : List Product) (perRow : Nat) (t : String) (now : Nat)
    (h : ∀ p ∈ products, p.id ≠ "") :
    renderVariant site feedTitle products perRow t now =
      jsJoin t (rssPieces site feedTitle products perRow) := by
  have hchunks : ∀ c ∈ chunk products (max 1 perRow), ∃ p r, c = p :: r ∧ p.id ≠ "" := by
    intro c hc
    obtain ⟨p, r, rfl⟩ : ∃ p r, c = p :: r := by
      cases c with
      | nil => exact absurd rfl (chunk_mem_ne_nil hc)
      | cons p r => exact ⟨p, r, rfl⟩
    exact ⟨p, r, rfl, h p (chunk_mem_mem hc (by simp))⟩
  unfold renderVariant toRss rssPieces
  rw [jsJoin_cons_ne _ _ _ (restPieces_ne_nil site feedTitle _ perRow 0 _ _),
    restPieces_join site feedTitle (chunk products (max 1 perRow)).length perRow t now
      (chunk products (max 1 perRow)) 0 afterLastBuild hchunks]
  cases hcs : chunk products (max 1 perRow) with
  | nil => simp [chanHead, afterLastBuild, rssTail, jsJoin, mapIdxFrom, String.append_assoc]
  | cons c cs2 =>
    simp only [List.isEmpty_cons, Bool.false_eq_true, if_false]
    simp [chanHead, afterLastBuild, rssTail, String.append_assoc]

/-- Witness for C8: a one-product feed at width 3 with a concrete
timestamp. -/
theorem toRss_deterministic_modulo_timestamp_witness :
    renderVariant ⟨"S", "http://s", "D", "nl"⟩ "F"
        [⟨"1", "T", "http://l", "", none⟩] 3 "Mon, 01 Jan 2024" 7 =
      jsJoin "Mon, 01 Jan 2024"
        (rssPieces ⟨"S", "http://s", "D", "nl"⟩ "F"
          [⟨"1", "T", "http://l", "", none⟩] 3) :=
  toRss_deterministic_modulo_timestamp ⟨"S", "http://s", "D", "nl"⟩ "F"
    [⟨"1", "T", "http://l", "", none⟩] 3 "Mon, 01 Jan 2024" 7 (by decide)
